import Mathlib

/-!
Verification of the Image Analyzer pipeline (`src/app.py`).

Strings are modelled as `List Char` (Python `str`), so that Python's
whitespace `split`, `join`, `strip` and `title` can be embedded directly.
Python floats carrying confidence values in `[0,1]` are modelled as exact
rationals `ℚ`; `f"{x:.1f}"`-style formatting is embedded with
round-half-to-even on rationals, matching CPython's float formatting on
the non-tie values that occur here.
-/

namespace ImageAnalyzer

/-- Whitespace for Python's `str.split()` / `str.strip()` (ASCII subset:
the only whitespace characters occurring in this program's strings). -/
def isPySpace (c : Char) : Bool :=
  c = ' ' || c = '\t' || c = '\n' || c = '\r'

/-- Worker for `pySplit`: scans the characters, accumulating the current
word in reverse in `cur`; whitespace runs separate words and empty words
are never emitted, exactly as Python's `str.split()` with no argument. -/
def wordsAux : List Char → List Char → List (List Char)
  | [], cur => if cur.isEmpty then [] else [cur.reverse]
  | c :: rest, cur =>
    if isPySpace c then
      if cur.isEmpty then wordsAux rest [] else cur.reverse :: wordsAux rest []
    else
      wordsAux rest (c :: cur)

/-- Python `s.split()` (no separator argument): split on runs of
whitespace, discarding empty strings. -/
def pySplit (cs : List Char) : List (List Char) :=
  wordsAux cs []

/-- Python `sep.join(parts)`. -/
def joinSep (sep : List Char) : List (List Char) → List Char
  | [] => []
  | [w] => w
  | w :: ws => w ++ sep ++ joinSep sep ws

/-- Python `s.strip()`: drop whitespace from both ends. -/
def pyStrip (cs : List Char) : List Char :=
  ((cs.dropWhile fun c => isPySpace c).reverse.dropWhile fun c => isPySpace c).reverse

/-- Append `t` to the last element of a list of words (for `[]` just
`[t]`, a case the lemmas never rely on). -/
def appendToLast (t : List Char) : List (List Char) → List (List Char)
  | [] => [t]
  | [w] => [w ++ t]
  | w :: ws => w :: appendToLast t ws

/-- Python `s.title()`: the first alphabetic character of every maximal
alphabetic run is uppercased, the rest of the run lowercased. The flag
records whether the previous character was alphabetic. -/
def titleAux : List Char → Bool → List Char
  | [], _ => []
  | c :: rest, prevAlpha =>
    (if c.isAlpha then (if prevAlpha then c.toLower else c.toUpper) else c)
      :: titleAux rest c.isAlpha

/-- Python `s.title()`. -/
def titleCase (cs : List Char) : List Char :=
  titleAux cs false

/-- Decimal digits of a natural number, as characters. -/
def natChars (n : Nat) : List Char :=
  Nat.toDigits 10 n

/-- Round `q * s` to the nearest natural for a nonnegative rational `q`,
ties to even — the rounding CPython's fixed-point float formatting
performs. Computed on the numerator and denominator directly. -/
def roundScaledHalfEven (q : ℚ) (s : Nat) : Nat :=
  let n : Nat := q.num.toNat * s
  let d : Nat := q.den
  let w := n / d
  let r := n % d
  if 2 * r < d then w
  else if d < 2 * r then w + 1
  else if w % 2 = 0 then w else w + 1

/-- Python `f"{q*100:.1f}%"` for a confidence fraction `q`: a percentage
with one decimal place (the tenths-of-a-percent value is `q * 1000`
rounded). -/
def fmtPct1 (q : ℚ) : List Char :=
  let m := roundScaledHalfEven q 1000
  natChars (m / 10) ++ '.' :: natChars (m % 10) ++ ['%']

/-- Python `f"{q*100:.0f}%"` for a confidence fraction `q`: an integer
percentage. -/
def fmtPct0 (q : ℚ) : List Char :=
  natChars (roundScaledHalfEven q 100) ++ ['%']

/-- One entry of `description.captions`. -/
structure Caption where
  text : List Char
  confidence : ℚ
deriving DecidableEq

/-- One entry of `objects` (only the label and confidence are consumed). -/
structure DetectedObject where
  object : List Char
  confidence : ℚ
deriving DecidableEq

/-- One entry of `tags`. -/
structure ImageTag where
  name : List Char
  confidence : ℚ
deriving DecidableEq

/-- The `description` substructure; `captions` may be absent. -/
structure Description where
  captions : Option (List Caption)
deriving DecidableEq

/-- The parsed JSON response; each top-level field may be absent
(`none`), mirroring `result.get(...)` access in the source. -/
structure AnalysisResult where
  description : Option Description
  objects : Option (List DetectedObject)
  tags : Option (List ImageTag)
deriving DecidableEq

/-- `result.get("description", {}).get("captions")`, with Python
truthiness collapsing an absent field to the empty list. -/
def captionsOf (r : AnalysisResult) : List Caption :=
  match r.description with
  | none => []
  | some d => d.captions.getD []

/-- `result.get("objects", [])`. -/
def objectsOf (r : AnalysisResult) : List DetectedObject :=
  r.objects.getD []

/-- `result.get("tags", [])`. -/
def tagsOf (r : AnalysisResult) : List ImageTag :=
  r.tags.getD []

/-- Lines 167–183 of `app.py`: the narrative paragraph before the word
cap. `objs` and `tags` are the already-truncated label/name lists. -/
def rawParagraph (capText : List Char) (objs tags : List (List Char)) : List Char :=
  let detailsParts :=
    (if objs.isEmpty then [] else ["It seems to show ".data ++ joinSep ", ".data objs]) ++
    (if tags.isEmpty then [] else ["The scene relates to ".data ++ joinSep ", ".data tags])
  let baseSentence := "The AI thinks this image is about ".data ++ capText ++ ".".data
  let extraSentence :=
    if detailsParts.isEmpty then [] else " ".data ++ joinSep ". ".data detailsParts ++ ".".data
  pyStrip (baseSentence ++ extraSentence)

/-- Lines 184–187 of `app.py`: hard cap at 100 whitespace-delimited
words, appending `"..."` on truncation. -/
def capParagraph (p : List Char) : List Char :=
  let ws := pySplit p
  if 100 < ws.length then joinSep [' '] (ws.take 100) ++ "...".data else p

/-- The narrative paragraph as rendered: build, then cap. -/
def buildParagraph (capText : List Char) (objs tags : List (List Char)) : List Char :=
  capParagraph (rawParagraph capText objs tags)

/-- The derived description view: the caption card plus the narrative
paragraph. -/
structure Summary where
  captionText : List Char
  captionConfidence : ℚ
  paragraph : List Char
deriving DecidableEq

/-- The description section: either the explicit warning state
(`st.warning("No description detected")`) or a summary. -/
inductive DescriptionView where
  | noDescription (msg : List Char)
  | described (s : Summary)
deriving DecidableEq

/-- An object/tag listing section: either the explicit warning state or
the list of (label, rendered confidence) entries. -/
inductive ListingView where
  | noneDetected (msg : List Char)
  | entries (es : List (List Char × List Char))
deriving DecidableEq

/-- Lines 152–195 of `app.py`: the description section. The first
caption is taken, the first 5 object labels and tag names feed the
narrative. -/
def summarize (r : AnalysisResult) : DescriptionView :=
  match captionsOf r with
  | [] => .noDescription "No description detected".data
  | cap :: _ =>
    let objs := ((objectsOf r).map (·.object)).take 5
    let tags := ((tagsOf r).map (·.name)).take 5
    .described ⟨cap.text, cap.confidence, buildParagraph cap.text objs tags⟩

/-- The narrative paragraph before the 100-word cap is applied (the
value of `paragraph` at line 183 of `app.py`). -/
def uncappedParagraph (r : AnalysisResult) : List Char :=
  match captionsOf r with
  | [] => []
  | cap :: _ =>
    rawParagraph cap.text (((objectsOf r).map (·.object)).take 5)
      (((tagsOf r).map (·.name)).take 5)

/-- Lines 202–213 of `app.py`: the full (untruncated) `objects` sequence
rendered as title-cased label plus one-decimal percentage. -/
def objectView (r : AnalysisResult) : ListingView :=
  match objectsOf r with
  | [] => .noneDetected "No objects detected".data
  | objs => .entries (objs.map fun o => (titleCase o.object, fmtPct1 o.confidence))

/-- Lines 220–230 of `app.py`: the full `tags` sequence rendered as name
plus integer percentage. -/
def tagView (r : AnalysisResult) : ListingView :=
  match tagsOf r with
  | [] => .noneDetected "No tags detected".data
  | ts => .entries (ts.map fun t => (t.name, fmtPct0 t.confidence))

/-- The remote call's observable response: status code, raw body text,
and the parsed JSON (only consulted when the status is 200). -/
structure ApiResponse where
  statusCode : Nat
  body : List Char
  json : AnalysisResult

/-- Outcome of one invocation after the remote call returned: either the
abort of lines 142–144 of `app.py` (`st.error(response.text); st.stop()`)
or the three rendered sections. -/
inductive PipelineOutcome where
  | aborted (errorText : List Char)
  | rendered (desc : DescriptionView) (objs : ListingView) (tags : ListingView)
deriving DecidableEq

/-- Lines 142–231 of `app.py`: a non-200 status surfaces the body
verbatim and stops; otherwise the three sections are rendered. -/
def runPipeline (resp : ApiResponse) : PipelineOutcome :=
  if resp.statusCode ≠ 200 then .aborted resp.body
  else .rendered (summarize resp.json) (objectView resp.json) (tagView resp.json)

/-- Color mode of a decoded in-memory image (Pillow's `P`, `L`, `LA`,
`RGB`, `RGBA` modes that the spec names). -/
inductive ColorMode where
  | rgb
  | rgba
  | grayscale
  | grayscaleAlpha
  | palette
deriving DecidableEq

/-- Encodings accepted at the upload boundary. -/
inductive ImageFormat where
  | jpeg
  | png
deriving DecidableEq

/-- A decoded in-memory pixel representation: a color mode plus abstract
pixel payload. -/
structure PILImage where
  mode : ColorMode
  pixelData : List Nat
deriving DecidableEq

/-- An uploaded byte sequence: either a valid encoding of some image, or
bytes no supported decoder accepts. -/
inductive ByteStream where
  | encodedImage (fmt : ImageFormat) (img : PILImage)
  | undecodable (raw : List Nat)
deriving DecidableEq

/-- Modelled from the spec: `PIL.Image.open` (not part of this
repository) decodes a valid byte stream into its in-memory image and
fails on anything else. -/
def imageOpen : ByteStream → Option PILImage
  | .encodedImage _ img => some img
  | .undecodable _ => none

/-- Modelled from the spec: `convert("RGB")` (Pillow, not part of this
repository) converts any color mode to three-channel color, dropping
alpha and expanding palette/grayscale, keeping the pixel payload. -/
def convertRGB (img : PILImage) : PILImage :=
  { img with mode := .rgb }

/-- Modelled from the spec: `save(buf, format="JPEG")` (Pillow, not part
of this repository) encodes the image as JPEG bytes. -/
def saveJPEG (img : PILImage) : ByteStream :=
  .encodedImage .jpeg img

/-- The spec's `DecodeError`: undecodable upload bytes. -/
inductive DecodeError where
  | unidentifiedImage
deriving DecidableEq

/-- Lines 121–125 of `app.py`: decode the upload, convert to RGB,
re-encode as JPEG; an undecodable input raises (uncaught, so surfaced to
the caller) and produces no buffer. -/
def normalize (b : ByteStream) : Except DecodeError ByteStream :=
  match imageOpen b with
  | none => .error .unidentifiedImage
  | some img => .ok (saveJPEG (convertRGB img))

/-- The spec's worked example response: one caption, two objects, two
tags. -/
def exampleResult : AnalysisResult :=
  { description := some ⟨some [⟨"a cat sitting on a chair".data, mkRat 91 100⟩]⟩
    objects := some [⟨"cat".data, mkRat 95 100⟩, ⟨"chair".data, mkRat 80 100⟩]
    tags := some [⟨"animal".data, mkRat 99 100⟩, ⟨"furniture".data, mkRat 77 100⟩] }

/-- Replace the captions sequence, leaving objects and tags unchanged. -/
def setCaptions (r : AnalysisResult) (caps : List Caption) : AnalysisResult :=
  { r with description := some ⟨some caps⟩ }

/-- Truncate the objects and tags sequences to their first 5 entries. -/
def truncateForNarrative (r : AnalysisResult) : AnalysisResult :=
  { r with objects := some ((objectsOf r).take 5), tags := some ((tagsOf r).take 5) }

/-- A response with 7 objects and 7 tags whose confidences are not in
descending order. -/
def manyResult : AnalysisResult :=
  { description := some ⟨some [⟨"a busy scene".data, mkRat 1 2⟩]⟩
    objects := some [⟨"o1".data, mkRat 10 100⟩, ⟨"o2".data, mkRat 90 100⟩,
      ⟨"o3".data, mkRat 20 100⟩, ⟨"o4".data, mkRat 80 100⟩, ⟨"o5".data, mkRat 30 100⟩,
      ⟨"o6".data, mkRat 99 100⟩, ⟨"o7".data, mkRat 1 100⟩]
    tags := some [⟨"t1".data, mkRat 5 100⟩, ⟨"t2".data, mkRat 95 100⟩,
      ⟨"t3".data, mkRat 15 100⟩, ⟨"t4".data, mkRat 85 100⟩, ⟨"t5".data, mkRat 25 100⟩,
      ⟨"t6".data, mkRat 75 100⟩, ⟨"t7".data, mkRat 35 100⟩] }

/-- A caption text of 110 one-letter words, long enough to push the
narrative paragraph past 100 words. -/
def longCaptionText : List Char :=
  joinSep [' '] (List.replicate 110 ['a'])

/-- A response whose narrative paragraph exceeds 100 words. -/
def longResult : AnalysisResult :=
  ⟨some ⟨some [⟨longCaptionText, mkRat 1 2⟩]⟩, none, none⟩

/-- The summary `summarize` produces on `longResult`. -/
def longSummary : Summary :=
  ⟨longCaptionText, mkRat 1 2, buildParagraph longCaptionText [] []⟩

/-! ### Helper lemmas -/

/-- Definitional equation of `wordsAux` on `[]`. -/
theorem wordsAux_nil (cur : List Char) :
    wordsAux [] cur = if cur.isEmpty then [] else [cur.reverse] := rfl

/-- Definitional equation of `wordsAux` on a cons. -/
theorem wordsAux_cons (c : Char) (rest cur : List Char) :
    wordsAux (c :: rest) cur =
      if isPySpace c then
        if cur.isEmpty then wordsAux rest [] else cur.reverse :: wordsAux rest []
      else wordsAux rest (c :: cur) := rfl

/-- `pyStrip` is the identity when both ends are non-whitespace. -/
theorem pyStrip_eq_self (cs : List Char)
    (h1 : ∀ c, cs.head? = some c → isPySpace c = false)
    (h2 : ∀ c, cs.getLast? = some c → isPySpace c = false) :
    pyStrip cs = cs := by
  have hd : (cs.dropWhile fun c => isPySpace c) = cs := by
    cases cs with
    | nil => rfl
    | cons c m =>
      rw [List.dropWhile_cons, h1 c rfl]
      simp
  show ((cs.dropWhile fun c => isPySpace c).reverse.dropWhile fun c => isPySpace c).reverse = cs
  rw [hd]
  cases hcs : cs.reverse with
  | nil =>
    simp only [List.reverse_eq_nil_iff] at hcs
    simp [hcs]
  | cons e m =>
    have he : isPySpace e = false := by
      apply h2
      rw [← List.head?_reverse, hcs]
      rfl
    rw [List.dropWhile_cons, he]
    simp only [Bool.false_eq_true, if_false]
    rw [← hcs, List.reverse_reverse]

/-- `rawParagraph` with both clause lists nonempty: base sentence, then
the objects clause, then the tags clause, joined with `". "`, with a
trailing period. -/
theorem rawParagraph_cons (capText o t : List Char) (os ts : List (List Char)) :
    rawParagraph capText (o :: os) (t :: ts) =
      "The AI thinks this image is about ".data ++ capText ++ ".".data ++ " ".data ++
        "It seems to show ".data ++ joinSep ", ".data (o :: os) ++ ". ".data ++
        "The scene relates to ".data ++ joinSep ", ".data (t :: ts) ++ ".".data := by
  simp only [rawParagraph, List.isEmpty_cons, Bool.false_eq_true, if_false,
    List.singleton_append, List.isEmpty_nil, joinSep]
  rw [pyStrip_eq_self]
  · simp [List.append_assoc]
  · intro c hc
    simp only [List.cons_append, List.head?_cons, Option.some.injEq] at hc
    rw [← hc]
    decide
  · intro c hc
    simp only [List.getLast?_append, List.getLast?_singleton, Option.or_some,
      Option.some.injEq] at hc
    rw [← hc]
    decide

/-- `rawParagraph` with objects only: base sentence, objects clause,
trailing period. -/
theorem rawParagraph_objs_only (capText o : List Char) (os : List (List Char)) :
    rawParagraph capText (o :: os) [] =
      "The AI thinks this image is about ".data ++ capText ++ ".".data ++ " ".data ++
        "It seems to show ".data ++ joinSep ", ".data (o :: os) ++ ".".data := by
  simp only [rawParagraph, joinSep, List.isEmpty_cons, Bool.false_eq_true, if_false,
    List.isEmpty_nil, if_true, List.append_nil, List.singleton_append]
  rw [pyStrip_eq_self]
  · simp [List.append_assoc]
  · intro c hc
    simp only [List.cons_append, List.head?_cons, Option.some.injEq] at hc
    rw [← hc]
    decide
  · intro c hc
    simp only [List.getLast?_append, List.getLast?_singleton, Option.or_some,
      Option.some.injEq] at hc
    rw [← hc]
    decide

/-- `rawParagraph` with tags only: base sentence, tags clause, trailing
period. -/
theorem rawParagraph_tags_only (capText t : List Char) (ts : List (List Char)) :
    rawParagraph capText [] (t :: ts) =
      "The AI thinks this image is about ".data ++ capText ++ ".".data ++ " ".data ++
        "The scene relates to ".data ++ joinSep ", ".data (t :: ts) ++ ".".data := by
  simp only [rawParagraph, joinSep, List.isEmpty_cons, Bool.false_eq_true, if_false,
    List.isEmpty_nil, if_true, List.nil_append, List.singleton_append]
  rw [pyStrip_eq_self]
  · simp [List.append_assoc]
  · intro c hc
    simp only [List.cons_append, List.head?_cons, Option.some.injEq] at hc
    rw [← hc]
    decide
  · intro c hc
    simp only [List.getLast?_append, List.getLast?_singleton, Option.or_some,
      Option.some.injEq] at hc
    rw [← hc]
    decide

/-- `rawParagraph` with neither clause: just the base sentence. -/
theorem rawParagraph_nil_nil (capText : List Char) :
    rawParagraph capText [] [] =
      "The AI thinks this image is about ".data ++ capText ++ ".".data := by
  simp only [rawParagraph, List.isEmpty_nil, if_true, List.nil_append, List.append_nil]
  rw [pyStrip_eq_self]
  · intro c hc
    simp only [List.cons_append, List.head?_cons, Option.some.injEq] at hc
    rw [← hc]
    decide
  · intro c hc
    simp only [List.getLast?_append, List.getLast?_singleton, Option.or_some,
      Option.some.injEq] at hc
    rw [← hc]
    decide

/-- The paragraph a produced `Summary` carries is the word-capped raw
paragraph. -/
theorem summarize_paragraph_eq (r : AnalysisResult) (s : Summary)
    (hs : summarize r = .described s) :
    s.paragraph = capParagraph (uncappedParagraph r) := by
  unfold summarize at hs
  unfold uncappedParagraph
  cases hcap : captionsOf r with
  | nil =>
    rw [hcap] at hs
    exact absurd hs (by simp)
  | cons cap caps =>
    rw [hcap] at hs
    simp only [DescriptionView.described.injEq] at hs
    rw [← hs]
    rfl

/-- Words produced by `wordsAux` are nonempty and whitespace-free,
provided the accumulator holds no whitespace. -/
theorem wordsAux_sound (cs : List Char) :
    ∀ cur, (∀ c ∈ cur, isPySpace c = false) →
      ∀ w ∈ wordsAux cs cur, w ≠ [] ∧ ∀ c ∈ w, isPySpace c = false := by
  induction cs with
  | nil =>
    intro cur hcur w hw
    unfold wordsAux at hw
    cases hemp : cur.isEmpty with
    | true => simp [hemp] at hw
    | false =>
      rw [hemp] at hw
      simp only [Bool.false_eq_true, if_false, List.mem_singleton] at hw
      subst hw
      refine ⟨?_, ?_⟩
      · simp only [ne_eq, List.reverse_eq_nil_iff]
        rw [List.isEmpty_eq_false] at hemp
        exact hemp
      · intro c hc
        exact hcur c (List.mem_reverse.mp hc)
  | cons c rest ih =>
    intro cur hcur w hw
    unfold wordsAux at hw
    cases hsp : isPySpace c with
    | true =>
      rw [hsp] at hw
      simp only [if_true] at hw
      cases hemp : cur.isEmpty with
      | true =>
        rw [hemp] at hw
        simp only [if_true] at hw
        exact ih [] (by simp) w hw
      | false =>
        rw [hemp] at hw
        simp only [Bool.false_eq_true, if_false, List.mem_cons] at hw
        rcases hw with hw1 | hw2
        · subst hw1
          refine ⟨?_, ?_⟩
          · simp only [ne_eq, List.reverse_eq_nil_iff]
            rw [List.isEmpty_eq_false] at hemp
            exact hemp
          · intro x hx
            exact hcur x (List.mem_reverse.mp hx)
        · exact ih [] (by simp) w hw2
    | false =>
      rw [hsp] at hw
      simp only [Bool.false_eq_true, if_false] at hw
      refine ih (c :: cur) ?_ w hw
      intro x hx
      rcases List.mem_cons.mp hx with rfl | hx2
      · exact hsp
      · exact hcur x hx2

/-- Scanning a whitespace-free word pushes it (reversed) onto the
accumulator. -/
theorem wordsAux_append_word (w : List Char) :
    ∀ cs cur, (∀ c ∈ w, isPySpace c = false) →
      wordsAux (w ++ cs) cur = wordsAux cs (w.reverse ++ cur) := by
  induction w with
  | nil => intro cs cur _; rfl
  | cons c v ih =>
    intro cs cur h
    have hc : isPySpace c = false := h c (by simp)
    show wordsAux (c :: (v ++ cs)) cur = wordsAux cs ((c :: v).reverse ++ cur)
    rw [wordsAux_cons, hc]
    simp only [Bool.false_eq_true, if_false]
    rw [ih cs (c :: cur) (fun x hx => h x (by simp [hx]))]
    congr 1
    simp [List.append_assoc]

/-- Splitting the space-join of nonempty whitespace-free words gives the
words back. -/
theorem pySplit_joinSep (ws : List (List Char))
    (h : ∀ w ∈ ws, w ≠ [] ∧ ∀ c ∈ w, isPySpace c = false) (hne : ws ≠ []) :
    pySplit (joinSep [' '] ws) = ws := by
  induction ws with
  | nil => exact absurd rfl hne
  | cons w vs ih =>
    obtain ⟨hw, hwc⟩ := h w (by simp)
    cases vs with
    | nil =>
      show wordsAux (joinSep [' '] [w]) [] = [w]
      have h0 : joinSep [' '] [w] = w := rfl
      rw [h0, ← List.append_nil w, wordsAux_append_word w [] [] hwc]
      unfold wordsAux
      rw [List.append_nil, List.append_nil]
      have : w.reverse.isEmpty = false := by
        cases hrev : w.reverse.isEmpty with
        | false => rfl
        | true =>
          simp only [List.isEmpty_iff, List.reverse_eq_nil_iff] at hrev
          exact absurd hrev hw
      rw [this]
      simp
    | cons v us =>
      show wordsAux (joinSep [' '] (w :: v :: us)) [] = w :: v :: us
      have h0 : joinSep [' '] (w :: v :: us) = w ++ (' ' :: joinSep [' '] (v :: us)) := by
        show w ++ [' '] ++ joinSep [' '] (v :: us) = _
        rw [List.append_assoc]
        rfl
      rw [h0, wordsAux_append_word w _ [] hwc, List.append_nil]
      unfold wordsAux
      rw [show isPySpace ' ' = true from rfl]
      simp only [if_true]
      have : w.reverse.isEmpty = false := by
        cases hrev : w.reverse.isEmpty with
        | false => rfl
        | true =>
          simp only [List.isEmpty_iff, List.reverse_eq_nil_iff] at hrev
          exact absurd hrev hw
      rw [this]
      simp only [Bool.false_eq_true, if_false, List.reverse_reverse]
      show w :: pySplit (joinSep [' '] (v :: us)) = w :: v :: us
      rw [ih (fun x hx => h x (by simp [hx])) (by simp)]

/-- Appending to the join appends to the last word. -/
theorem joinSep_append_last (sep t : List Char) :
    ∀ ws, ws ≠ [] → joinSep sep ws ++ t = joinSep sep (appendToLast t ws)
  | [], h => absurd rfl h
  | [w], _ => rfl
  | w :: v :: vs, _ => by
    show (w ++ sep ++ joinSep sep (v :: vs)) ++ t =
      joinSep sep (w :: appendToLast t (v :: vs))
    have h1 : joinSep sep (v :: vs) ++ t = joinSep sep (appendToLast t (v :: vs)) :=
      joinSep_append_last sep t (v :: vs) (by simp)
    have h2 : ∃ a as, appendToLast t (v :: vs) = a :: as := by
      cases vs with
      | nil => exact ⟨v ++ t, [], rfl⟩
      | cons u us => exact ⟨v, appendToLast t (u :: us), rfl⟩
    obtain ⟨a, as, h2⟩ := h2
    rw [List.append_assoc, List.append_assoc, h1, h2]
    show w ++ (sep ++ joinSep sep (a :: as)) = w ++ sep ++ joinSep sep (a :: as)
    rw [List.append_assoc]

/-- `appendToLast` preserves length on nonempty lists. -/
theorem appendToLast_length (t : List Char) :
    ∀ ws : List (List Char), ws ≠ [] → (appendToLast t ws).length = ws.length
  | [], h => absurd rfl h
  | [_], _ => rfl
  | w :: v :: vs, _ => by
    show (w :: appendToLast t (v :: vs)).length = (w :: v :: vs).length
    simp only [List.length_cons]
    rw [appendToLast_length t (v :: vs) (by simp)]
    simp

/-- `appendToLast` preserves word sanity when the appended tail is
nonempty and whitespace-free. -/
theorem appendToLast_sound (t : List Char) (ht : t ≠ [])
    (htc : ∀ c ∈ t, isPySpace c = false) :
    ∀ ws : List (List Char),
      (∀ w ∈ ws, w ≠ [] ∧ ∀ c ∈ w, isPySpace c = false) →
      ∀ w ∈ appendToLast t ws, w ≠ [] ∧ ∀ c ∈ w, isPySpace c = false
  | [], _, w, hw => by
    simp only [appendToLast, List.mem_singleton] at hw
    subst hw
    exact ⟨ht, htc⟩
  | [v], h, w, hw => by
    simp only [appendToLast, List.mem_singleton] at hw
    subst hw
    obtain ⟨hv, hvc⟩ := h v (by simp)
    refine ⟨?_, ?_⟩
    · simp [ht]
    · intro c hc
      rcases List.mem_append.mp hc with h1 | h2
      · exact hvc c h1
      · exact htc c h2
  | v :: u :: us, h, w, hw => by
    rcases List.mem_cons.mp hw with rfl | hw2
    · exact h w (by simp)
    · exact appendToLast_sound t ht htc (u :: us)
        (fun x hx => h x (by simp [List.mem_cons.mp hx])) w hw2

/-! ### Claim theorems -/

/-- C1: whenever the built narrative paragraph exceeds 100
whitespace-delimited words, `summarize` truncates it to exactly the
first 100 words and appends an ellipsis marker, so the rendered
paragraph's whitespace-split word count is exactly 100 and the ellipsis
trails it; the cap counts words, not characters, and ignores sentence
boundaries. -/
theorem narrative_word_cap (r : AnalysisResult) (s : Summary)
    (hs : summarize r = .described s)
    (hlong : 100 < (pySplit (uncappedParagraph r)).length) :
    (pySplit s.paragraph).length = 100 ∧ "...".data <:+ s.paragraph := by
  rw [summarize_paragraph_eq r s hs]
  have hws : ∀ w ∈ (pySplit (uncappedParagraph r)).take 100,
      w ≠ [] ∧ ∀ c ∈ w, isPySpace c = false := by
    intro w hw
    exact wordsAux_sound (uncappedParagraph r) [] (by simp) w (List.mem_of_mem_take hw)
  have hlen : ((pySplit (uncappedParagraph r)).take 100).length = 100 := by
    rw [List.length_take]
    omega
  have htne : (pySplit (uncappedParagraph r)).take 100 ≠ [] := by
    intro h0
    rw [h0] at hlen
    exact absurd hlen (by decide)
  have hcp : capParagraph (uncappedParagraph r) =
      joinSep [' '] ((pySplit (uncappedParagraph r)).take 100) ++ "...".data := by
    show (if 100 < (pySplit (uncappedParagraph r)).length then
        joinSep [' '] ((pySplit (uncappedParagraph r)).take 100) ++ "...".data
      else uncappedParagraph r) = _
    rw [if_pos hlong]
  rw [hcp]
  constructor
  · rw [joinSep_append_last [' '] "...".data _ htne, pySplit_joinSep]
    · rw [appendToLast_length _ _ htne, hlen]
    · exact appendToLast_sound "...".data (by decide) (by decide) _ hws
    · intro h0
      have h1 := appendToLast_length "...".data
        ((pySplit (uncappedParagraph r)).take 100) htne
      rw [h0, hlen] at h1
      exact absurd h1 (by decide)
  · exact List.suffix_append _ _

set_option maxRecDepth 8000

/-- C1 witness: on a response whose caption has 110 words, the rendered
paragraph splits into exactly 100 words and ends with the ellipsis. -/
theorem narrative_word_cap_witness :
    (pySplit longSummary.paragraph).length = 100 ∧ "...".data <:+ longSummary.paragraph :=
  narrative_word_cap longResult longSummary (by decide) (by decide)

/-- C2: with at least one caption the narrative paragraph is the fixed
concatenation — base sentence from the caption text, then (when taken)
the objects clause with comma-joined labels, then (when taken) the tags
clause with comma-joined names, present clauses joined with `". "` and a
trailing period appended — and on the spec's example input it equals
exactly the expected sentence. -/
theorem narrative_fixed_structure :
    (∀ (cap : Caption) (caps : List Caption) (objs : Option (List DetectedObject))
        (tags : Option (List ImageTag)),
        summarize ⟨some ⟨some (cap :: caps)⟩, objs, tags⟩ =
          .described ⟨cap.text, cap.confidence,
            capParagraph (rawParagraph cap.text
              (((objs.getD []).map (·.object)).take 5)
              (((tags.getD []).map (·.name)).take 5))⟩) ∧
    (∀ capText o t os ts,
        rawParagraph capText (o :: os) (t :: ts) =
          "The AI thinks this image is about ".data ++ capText ++ ".".data ++ " ".data ++
            "It seems to show ".data ++ joinSep ", ".data (o :: os) ++ ". ".data ++
            "The scene relates to ".data ++ joinSep ", ".data (t :: ts) ++ ".".data) ∧
    (∀ capText o os,
        rawParagraph capText (o :: os) [] =
          "The AI thinks this image is about ".data ++ capText ++ ".".data ++ " ".data ++
            "It seems to show ".data ++ joinSep ", ".data (o :: os) ++ ".".data) ∧
    (∀ capText t ts,
        rawParagraph capText [] (t :: ts) =
          "The AI thinks this image is about ".data ++ capText ++ ".".data ++ " ".data ++
            "The scene relates to ".data ++ joinSep ", ".data (t :: ts) ++ ".".data) ∧
    (∀ capText, rawParagraph capText [] [] =
        "The AI thinks this image is about ".data ++ capText ++ ".".data) ∧
    summarize exampleResult =
      .described ⟨"a cat sitting on a chair".data, mkRat 91 100,
        ("The AI thinks this image is about a cat sitting on a chair. " ++
          "It seems to show cat, chair. The scene relates to animal, furniture.").data⟩ := by
  refine ⟨?_, ?_, ?_, ?_, ?_, by decide⟩
  · intro cap caps objs tags
    rfl
  · intro capText o t os ts
    exact rawParagraph_cons capText o t os ts
  · intro capText o os
    exact rawParagraph_objs_only capText o os
  · intro capText t ts
    exact rawParagraph_tags_only capText t ts
  · intro capText
    exact rawParagraph_nil_nil capText

/-- C3: `summarize` uses exactly the first caption — recording its text
and confidence — and the remaining captions are ignored whatever their
confidences: replacing the tail changes nothing. -/
theorem summarize_first_caption_only (r : AnalysisResult) (cap : Caption)
    (rest rest' : List Caption) :
    summarize (setCaptions r (cap :: rest)) = summarize (setCaptions r (cap :: rest')) ∧
    ∃ s, summarize (setCaptions r (cap :: rest)) = .described s ∧
      s.captionText = cap.text ∧ s.captionConfidence = cap.confidence :=
  ⟨rfl, ⟨_, rfl, rfl, rfl⟩⟩

/-- C4: the narrative paragraph references at most the first 5 objects
and first 5 tags, in input order: truncating both sequences to their
first 5 entries leaves `summarize` unchanged, and on a 7-object/7-tag
response with unsorted confidences the paragraph lists exactly the first
five of each, in input order. -/
theorem narrative_first_five_only :
    (∀ r : AnalysisResult, summarize r = summarize (truncateForNarrative r)) ∧
    summarize manyResult =
      .described ⟨"a busy scene".data, mkRat 1 2,
        ("The AI thinks this image is about a busy scene. " ++
          "It seems to show o1, o2, o3, o4, o5. " ++
          "The scene relates to t1, t2, t3, t4, t5.").data⟩ := by
  refine ⟨?_, by decide⟩
  intro r
  unfold summarize
  have h1 : captionsOf (truncateForNarrative r) = captionsOf r := rfl
  rw [h1]
  cases captionsOf r with
  | nil => rfl
  | cons cap caps =>
    have h2 : objectsOf (truncateForNarrative r) = (objectsOf r).take 5 := rfl
    have h3 : tagsOf (truncateForNarrative r) = (tagsOf r).take 5 := rfl
    rw [h2, h3, List.map_take, List.map_take, List.take_take, List.take_take]
    simp

/-- C5: the object-listing view pairs, for every entry of the full
objects sequence in input order, the title-cased label with its
confidence as a one-decimal percentage; the tag-listing view pairs, for
every entry of the full tags sequence in input order, the name with its
confidence as an integer percentage; confidence 0.873 renders as
"87.3%" for objects and "87%" for tags. -/
theorem listing_views_full (r : AnalysisResult) (objs : List DetectedObject)
    (ts : List ImageTag) (ho : r.objects = some objs) (hone : objs ≠ [])
    (ht : r.tags = some ts) (htne : ts ≠ []) :
    objectView r = .entries (objs.map fun o => (titleCase o.object, fmtPct1 o.confidence)) ∧
    tagView r = .entries (ts.map fun t => (t.name, fmtPct0 t.confidence)) ∧
    fmtPct1 (mkRat 873 1000) = "87.3%".data ∧
    fmtPct0 (mkRat 873 1000) = "87%".data := by
  refine ⟨?_, ?_, by decide, by decide⟩
  · unfold objectView
    have h1 : objectsOf r = objs := by
      unfold objectsOf
      rw [ho]
      rfl
    rw [h1]
    cases objs with
    | nil => exact absurd rfl hone
    | cons o os => rfl
  · unfold tagView
    have h1 : tagsOf r = ts := by
      unfold tagsOf
      rw [ht]
      rfl
    rw [h1]
    cases ts with
    | nil => exact absurd rfl htne
    | cons t us => rfl

/-- C5 witness: on the spec's example input the two listing views are
the rendered full sequences, and 0.873 renders as "87.3%" and "87%". -/
theorem listing_views_full_witness :
    objectView exampleResult =
      .entries (([⟨"cat".data, mkRat 95 100⟩, ⟨"chair".data, mkRat 80 100⟩] :
          List DetectedObject).map
        fun o => (titleCase o.object, fmtPct1 o.confidence)) ∧
    tagView exampleResult =
      .entries (([⟨"animal".data, mkRat 99 100⟩, ⟨"furniture".data, mkRat 77 100⟩] :
          List ImageTag).map
        fun t => (t.name, fmtPct0 t.confidence)) ∧
    fmtPct1 (mkRat 873 1000) = "87.3%".data ∧
    fmtPct0 (mkRat 873 1000) = "87%".data :=
  listing_views_full exampleResult _ _ rfl (by decide) rfl (by decide)

/-- C6: with an empty captions sequence, `summarize` produces the
explicit no-description state — a total function result, with a
nonempty warning message, not an empty string. -/
theorem empty_captions_no_description (r : AnalysisResult)
    (h : captionsOf r = []) :
    summarize r = .noDescription "No description detected".data ∧
      "No description detected".data ≠ [] := by
  constructor
  · unfold summarize
    rw [h]
  · decide

/-- C6 witness: the all-absent response yields the no-description
state. -/
theorem empty_captions_no_description_witness :
    summarize ⟨none, none, none⟩ = .noDescription "No description detected".data ∧
      "No description detected".data ≠ [] :=
  empty_captions_no_description ⟨none, none, none⟩ rfl

/-- C7: every decodable upload (JPEG or PNG, any color mode) is
re-encoded unconditionally — even when already JPEG — to a JPEG byte
buffer in three-channel color, and a round-trip decode of the output
succeeds in three-channel color. -/
theorem normalize_reencodes_jpeg_rgb (fmt : ImageFormat) (img : PILImage) :
    normalize (.encodedImage fmt img) = .ok (.encodedImage .jpeg (convertRGB img)) ∧
    ∃ img2, imageOpen (.encodedImage .jpeg (convertRGB img)) = some img2 ∧
      img2.mode = .rgb :=
  ⟨rfl, ⟨convertRGB img, rfl, rfl⟩⟩

/-- C8: undecodable bytes make `normalize` fail with the decode error —
no output buffer is produced and the failure is surfaced. -/
theorem normalize_undecodable_fails (b : ByteStream)
    (h : imageOpen b = none) :
    normalize b = .error .unidentifiedImage := by
  unfold normalize
  rw [h]

/-- C8 witness: a concrete undecodable byte sequence fails with the
decode error. -/
theorem normalize_undecodable_fails_witness :
    normalize (.undecodable [0]) = .error .unidentifiedImage :=
  normalize_undecodable_fails (.undecodable [0]) rfl

/-- C9: a non-200 status surfaces the entire response body verbatim as
the error text and aborts the invocation — no summary or listing views
are produced. -/
theorem non200_aborts_with_body (resp : ApiResponse)
    (h : resp.statusCode ≠ 200) :
    runPipeline resp = .aborted resp.body := by
  unfold runPipeline
  rw [if_pos h]

/-- C9 witness: a 403 response aborts with its body text. -/
theorem non200_aborts_with_body_witness :
    runPipeline ⟨403, "Access denied".data, ⟨none, none, none⟩⟩ =
      .aborted "Access denied".data :=
  non200_aborts_with_body ⟨403, "Access denied".data, ⟨none, none, none⟩⟩ (by decide)

/-- C10: `summarize` and the listing views are total over responses with
absent top-level fields: each absent field behaves exactly as the empty
sequence, and the all-absent response yields the three explicit empty
states, with no exception possible (the embedded functions are total by
construction). -/
theorem absent_fields_as_empty (r : AnalysisResult) :
    summarize { r with description := none } =
      summarize { r with description := some ⟨some []⟩ } ∧
    summarize { r with description := some ⟨none⟩ } =
      summarize { r with description := some ⟨some []⟩ } ∧
    summarize { r with objects := none } = summarize { r with objects := some [] } ∧
    summarize { r with tags := none } = summarize { r with tags := some [] } ∧
    objectView { r with objects := none } = objectView { r with objects := some [] } ∧
    tagView { r with tags := none } = tagView { r with tags := some [] } ∧
    summarize ⟨none, none, none⟩ = .noDescription "No description detected".data ∧
    objectView ⟨none, none, none⟩ = .noneDetected "No objects detected".data ∧
    tagView ⟨none, none, none⟩ = .noneDetected "No tags detected".data :=
  ⟨rfl, rfl, rfl, rfl, rfl, rfl, rfl, rfl, rfl⟩

end ImageAnalyzer
